import Mathlib

/-!
Verification of `sionna/channel/generate_time_channel.py`
(`GenerateTimeChannel`): generation of discrete-time channel taps from a
continuous-time channel impulse response via sinc interpolation.

The class `GenerateTimeChannel` is embedded from the source file.  The
helper `cir_to_time_channel` is imported by the source from
`sionna.channel.utils`, which is not part of the supplied sources; it is
modelled from the specification (tap formula, per-batch-example energy
normalization with a zero-energy guard).

Floating-point tensors are modelled as functions into `ℂ`/`ℝ` together
with explicitly carried axis sizes; Python integers are `ℤ` where the
source performs signed arithmetic on them.
-/

namespace Sionna

/-- Modelled from the spec: `sinc(x) = sin(pi x) / (pi x)` with `sinc(0) = 1`
(the pulse-shaping kernel used by `cir_to_time_channel`, which is missing
from the supplied sources). -/
noncomputable def sinc (x : ℝ) : ℝ :=
  if x = 0 then 1 else Real.sin (Real.pi * x) / (Real.pi * x)

/-- A channel impulse response as returned by the sampler (`channel_model`):
path gains `a` indexed by `[batch, rx, rx_antenna, tx, tx_antenna, path,
time_sample]` and path delays `tau` indexed by `[batch, rx, tx, path]`,
together with the axis sizes. -/
structure CIR where
  batchSize : ℕ
  numRx : ℕ
  numRxAnt : ℕ
  numTx : ℕ
  numTxAnt : ℕ
  numPaths : ℕ
  numSteps : ℕ
  a : ℕ → ℕ → ℕ → ℕ → ℕ → ℕ → ℕ → ℂ
  tau : ℕ → ℕ → ℕ → ℕ → ℝ

/-- The discrete-time channel tensor: taps `h` indexed by
`[batch, rx, rx_antenna, tx, tx_antenna, time_step, lag_index]`, where lag
index `k` stands for true lag `l_min + k`, together with the axis sizes. -/
structure TimeChannel where
  batchSize : ℕ
  numRx : ℕ
  numRxAnt : ℕ
  numTx : ℕ
  numTxAnt : ℕ
  numSteps : ℕ
  lTot : ℕ
  h : ℕ → ℕ → ℕ → ℕ → ℕ → ℕ → ℕ → ℂ

/-- Modelled from the spec: the raw (pre-normalization) discrete tap at time
step `s` and lag index `k` (true lag `l_min + k`) is the sum over all
multipath components of
`gain(path, s) * sinc((l_min + k) - bandwidth * delay(path))`. -/
noncomputable def rawTap (bandwidth : ℝ) (cir : CIR) (l_min : ℤ)
    (b r ra t ta s k : ℕ) : ℂ :=
  ∑ m ∈ Finset.range cir.numPaths,
    cir.a b r ra t ta m s *
      Complex.ofReal (sinc (((l_min + (k : ℤ) : ℤ) : ℝ)
        - bandwidth * cir.tau b r t m))

/-- Modelled from the spec: the unnormalized discrete-time channel.  The
time axis is inherited from the impulse response; the lag axis has length
`l_max - l_min + 1`. -/
noncomputable def rawTimeChannel (bandwidth : ℝ) (cir : CIR)
    (l_min l_max : ℤ) : TimeChannel :=
  { batchSize := cir.batchSize
    numRx := cir.numRx
    numRxAnt := cir.numRxAnt
    numTx := cir.numTx
    numTxAnt := cir.numTxAnt
    numSteps := cir.numSteps
    lTot := (l_max - l_min + 1).toNat
    h := rawTap bandwidth cir l_min }

/-- Total tap energy (sum of squared magnitudes over all lags and antenna
pairs) of one batch example at one time step. -/
noncomputable def stepEnergy (tc : TimeChannel) (b s : ℕ) : ℝ :=
  ∑ r ∈ Finset.range tc.numRx, ∑ ra ∈ Finset.range tc.numRxAnt,
    ∑ t ∈ Finset.range tc.numTx, ∑ ta ∈ Finset.range tc.numTxAnt,
      ∑ k ∈ Finset.range tc.lTot, Complex.normSq (tc.h b r ra t ta s k)

/-- Average (over output time steps) of the total tap energy of one batch
example. -/
noncomputable def avgEnergy (tc : TimeChannel) (b : ℕ) : ℝ :=
  (∑ s ∈ Finset.range tc.numSteps, stepEnergy tc b s) / (tc.numSteps : ℝ)

/-- Modelled from the spec: `cir_to_time_channel` from
`sionna.channel.utils` (missing from the supplied sources).  Computes the
raw sinc-interpolated taps; when `normalize` is set, each batch example is
rescaled by `1 / sqrt(energy)` where `energy` is the average per-time-step
total tap energy, guarding the degenerate zero-energy case so that the
output stays finite (zero) instead of dividing by zero. -/
noncomputable def cir_to_time_channel (bandwidth : ℝ) (cir : CIR)
    (l_min l_max : ℤ) (normalize : Bool) : TimeChannel :=
  let raw := rawTimeChannel bandwidth cir l_min l_max
  if normalize then
    { raw with
        h := fun b r ra t ta s k =>
          if avgEnergy raw b = 0 then 0
          else raw.h b r ra t ta s k / Complex.ofReal (Real.sqrt (avgEnergy raw b)) }
  else raw

/-- The sampler collaborator (`channel_model`): a callable taking
`(batch_size, num_time_steps, sampling_frequency)` and returning a channel
impulse response. -/
def Sampler : Type := Option ℕ → ℤ → ℝ → CIR

/-- The configuration stored by `GenerateTimeChannel.__init__`. -/
structure GenerateTimeChannel where
  cir_sampler : Sampler
  l_min : ℤ
  l_max : ℤ
  l_tot : ℤ
  bandwidth : ℝ
  num_time_steps : ℤ
  normalize_channel : Bool

/-- `GenerateTimeChannel.__init__`: stores the configuration.  The source
performs no validation of any parameter. -/
def GenerateTimeChannel.init (channel_model : Sampler) (bandwidth : ℝ)
    (num_time_samples l_min l_max : ℤ) (normalize_channel : Bool) :
    GenerateTimeChannel :=
  { cir_sampler := channel_model
    l_min := l_min
    l_max := l_max
    l_tot := l_max - l_min + 1
    bandwidth := bandwidth
    num_time_steps := num_time_samples
    normalize_channel := normalize_channel }

/-- The impulse response sampled by `__call__`: the sampler is invoked with
the requested batch size, `num_time_steps + l_tot - 1` sampling instants
and the configured bandwidth. -/
def GenerateTimeChannel.sampledCIR (g : GenerateTimeChannel)
    (batch_size : Option ℕ) : CIR :=
  g.cir_sampler batch_size (g.num_time_steps + g.l_tot - 1) g.bandwidth

/-- `GenerateTimeChannel.__call__`: sample an impulse response and convert
it to a discrete-time channel. -/
noncomputable def GenerateTimeChannel.call (g : GenerateTimeChannel)
    (batch_size : Option ℕ) : TimeChannel :=
  cir_to_time_channel g.bandwidth (g.sampledCIR batch_size) g.l_min g.l_max
    g.normalize_channel

/-- One invocation of the sampler, recorded with its arguments. -/
structure SamplerCall where
  batch_size : Option ℕ
  num_time_steps : ℤ
  bandwidth : ℝ

/-- Invoking the sampler while recording the call (for effect accounting). -/
def invokeSampler (s : Sampler) (c : SamplerCall) : CIR × List SamplerCall :=
  (s c.batch_size c.num_time_steps c.bandwidth, [c])

/-- `__call__` with its effects made explicit: the (unmodified) object
state, the returned tensor, and the list of sampler invocations, in order.
The single sampler invocation happens before `cir_to_time_channel` runs. -/
noncomputable def GenerateTimeChannel.callLogged (g : GenerateTimeChannel)
    (batch_size : Option ℕ) :
    GenerateTimeChannel × TimeChannel × List SamplerCall :=
  let sampled := invokeSampler g.cir_sampler
    ⟨batch_size, g.num_time_steps + g.l_tot - 1, g.bandwidth⟩
  (g, cir_to_time_channel g.bandwidth sampled.1 g.l_min g.l_max
    g.normalize_channel, sampled.2)

/-- Modelled from the spec: the eager construction validation the spec's
error taxonomy demands (`ConfigurationError` for `l_min > l_max`,
non-positive `bandwidth` or non-positive `num_time_samples`); `none`
represents the raised error.  The source constructor has no such check. -/
noncomputable def initChecked (channel_model : Sampler) (bandwidth : ℝ)
    (num_time_samples l_min l_max : ℤ) (normalize_channel : Bool) :
    Option GenerateTimeChannel :=
  if l_min ≤ l_max ∧ 0 < bandwidth ∧ 0 < num_time_samples then
    some (GenerateTimeChannel.init channel_model bandwidth num_time_samples
      l_min l_max normalize_channel)
  else none

/-- A sampler whose impulse response has a single path of constant gain
`gain` and constant delay `tauv`, one antenna pair, honouring the requested
number of sampling instants (used as a concrete collaborator). -/
def constPathSampler (gain : ℂ) (tauv : ℝ) : Sampler :=
  fun _ requested _ =>
    { batchSize := 1
      numRx := 1
      numRxAnt := 1
      numTx := 1
      numTxAnt := 1
      numPaths := 1
      numSteps := requested.toNat
      a := fun _ _ _ _ _ _ _ => gain
      tau := fun _ _ _ _ => tauv }

/-- Rescale every path gain of a sampler's output by `c`, keeping the
delays and all axis sizes. -/
def scaleGains (c : ℂ) (s : Sampler) : Sampler :=
  fun bs n w =>
    let cir := s bs n w
    { cir with a := fun b r ra t ta m st => c * cir.a b r ra t ta m st }

/-- `GenerateTimeChannel.__init__` with its effects made explicit: the
constructor only stores configuration and performs no sampler invocation. -/
def GenerateTimeChannel.initLogged (channel_model : Sampler) (bandwidth : ℝ)
    (num_time_samples l_min l_max : ℤ) (normalize_channel : Bool) :
    GenerateTimeChannel × List SamplerCall :=
  (GenerateTimeChannel.init channel_model bandwidth num_time_samples l_min
    l_max normalize_channel, [])

/-- A concrete generator: unit-gain zero-delay single path, bandwidth 1,
one input sample, lag window `[0, 0]`, no normalization. -/
def gU : GenerateTimeChannel :=
  GenerateTimeChannel.init (constPathSampler 1 0) 1 1 0 0 false

/-- A concrete generator with lag window `[-1, 1]`, no normalization. -/
def gU3 : GenerateTimeChannel :=
  GenerateTimeChannel.init (constPathSampler 1 0) 1 1 (-1) 1 false

/-- A concrete generator with normalization enabled. -/
def gN : GenerateTimeChannel :=
  GenerateTimeChannel.init (constPathSampler 1 0) 1 1 0 0 true

/-- A concrete generator with gain `2` and normalization enabled. -/
def gN2 : GenerateTimeChannel :=
  GenerateTimeChannel.init (constPathSampler 2 0) 1 1 0 0 true

/-- A concrete generator whose sampler returns an all-zero impulse
response, with normalization enabled. -/
def gZ : GenerateTimeChannel :=
  GenerateTimeChannel.init (constPathSampler 0 0) 1 1 0 0 true

/-- A sampler with one receiver carrying two receive antennas and a single
zero-delay unit-gain path, honouring the requested number of instants. -/
def twoAntSampler : Sampler :=
  fun _ requested _ =>
    { batchSize := 1
      numRx := 1
      numRxAnt := 2
      numTx := 1
      numTxAnt := 1
      numPaths := 1
      numSteps := requested.toNat
      a := fun _ _ _ _ _ _ _ => 1
      tau := fun _ _ _ _ => 0 }

/-- A concrete generator over `twoAntSampler` with normalization enabled. -/
def gNA : GenerateTimeChannel :=
  GenerateTimeChannel.init twoAntSampler 1 1 0 0 true

lemma sinc_zero : sinc 0 = 1 := by simp [sinc]

lemma sinc_intCast (m : ℤ) : sinc (m : ℝ) = if m = 0 then 1 else 0 := by
  rcases eq_or_ne m 0 with hm | hm
  · simp [hm, sinc]
  · have hm' : (m : ℝ) ≠ 0 := Int.cast_ne_zero.mpr hm
    have hsin : Real.sin (Real.pi * (m : ℝ)) = 0 := by
      rw [mul_comm]
      exact Real.sin_int_mul_pi m
    simp [sinc, hm', hm, hsin]

/-- C4: on every call, the sampler is invoked exactly once, before any tap
computation, with the requested batch size, a time-step count of
`num_time_steps + l_tot - 1`, and the configured bandwidth. -/
theorem sampler_invocation_args (g : GenerateTimeChannel) (bs : Option ℕ) :
    (g.callLogged bs).2.2 =
      [⟨bs, g.num_time_steps + g.l_tot - 1, g.bandwidth⟩] := rfl

/-- C10: each call to `generate` invokes the sampler exactly once, returns
the object state unchanged, and across any two calls the sampler arguments
other than the batch size (time-step count and bandwidth) are identical. -/
theorem call_pure_frame (g : GenerateTimeChannel) (bs bs' : Option ℕ) :
    (g.callLogged bs).1 = g ∧
    (g.callLogged bs).2.2.length = 1 ∧
    (g.callLogged bs).2.2.map SamplerCall.num_time_steps =
      (g.callLogged bs').2.2.map SamplerCall.num_time_steps ∧
    (g.callLogged bs).2.2.map SamplerCall.bandwidth =
      (g.callLogged bs').2.2.map SamplerCall.bandwidth :=
  ⟨rfl, rfl, rfl, rfl⟩

/-- C9: `generate` is deterministic given the sampler's output: if two
samplers return the same impulse response at the invoked arguments, the
two calls return the same tap tensor. -/
theorem call_deterministic (s1 s2 : Sampler) (bandwidth : ℝ)
    (num_time_samples l_min l_max : ℤ) (norm : Bool) (bs : Option ℕ)
    (h : s1 bs (num_time_samples + (l_max - l_min + 1) - 1) bandwidth =
         s2 bs (num_time_samples + (l_max - l_min + 1) - 1) bandwidth) :
    (GenerateTimeChannel.init s1 bandwidth num_time_samples l_min l_max
      norm).call bs =
    (GenerateTimeChannel.init s2 bandwidth num_time_samples l_min l_max
      norm).call bs := by
  simp only [GenerateTimeChannel.call, GenerateTimeChannel.sampledCIR,
    GenerateTimeChannel.init]
  rw [h]

/-- Witness for C9 at a concrete configuration and sampler. -/
theorem call_deterministic_witness :
    (GenerateTimeChannel.init (constPathSampler 1 0) 1 1 0 0 false).call none =
    (GenerateTimeChannel.init (constPathSampler 1 0) 1 1 0 0 false).call none :=
  call_deterministic (constPathSampler 1 0) (constPathSampler 1 0) 1 1 0 0
    false none rfl

/-- C2 counterexample: constructing with `l_min = 1 > 0 = l_max` is NOT
rejected: `__init__` has no error path and stores the invalid
configuration (here with `l_tot = 0`), while the validation the spec
demands (`initChecked`, modelled from the spec) would reject it. -/
theorem init_no_validation_counterexample :
    initChecked (constPathSampler 1 0) 1 4 1 0 false = none ∧
    (GenerateTimeChannel.init (constPathSampler 1 0) 1 4 1 0 false).l_min = 1 ∧
    (GenerateTimeChannel.init (constPathSampler 1 0) 1 4 1 0 false).l_max = 0 ∧
    (GenerateTimeChannel.init (constPathSampler 1 0) 1 4 1 0 false).l_tot = 0 := by
  refine ⟨?_, rfl, rfl, rfl⟩
  norm_num [initChecked]

/-- C2 amended: construction never rejects any parameters: for every
parameter assignment (including `l_min > l_max`, non-positive bandwidth or
non-positive `num_time_samples`) the constructor stores the parameters
verbatim, derives `l_tot = l_max - l_min + 1`, and performs zero sampler
invocations. -/
theorem init_always_succeeds (channel_model : Sampler) (bandwidth : ℝ)
    (num_time_samples l_min l_max : ℤ) (norm : Bool) :
    (GenerateTimeChannel.initLogged channel_model bandwidth num_time_samples
      l_min l_max norm).2 = [] ∧
    (GenerateTimeChannel.initLogged channel_model bandwidth num_time_samples
      l_min l_max norm).1 =
      { cir_sampler := channel_model
        l_min := l_min
        l_max := l_max
        l_tot := l_max - l_min + 1
        bandwidth := bandwidth
        num_time_steps := num_time_samples
        normalize_channel := norm } :=
  ⟨rfl, rfl⟩

/-- C1 (amended): with normalization disabled, the returned tap at every
time step `s` and true lag `l ∈ [l_min, l_max]` (lag index `l - l_min`)
equals the sum over all multipath components of
`a_m(s) * sinc(l - bandwidth * tau_m)`. -/
theorem call_tap_formula (g : GenerateTimeChannel) (bs : Option ℕ)
    (hnorm : g.normalize_channel = false) (l : ℤ)
    (hl1 : g.l_min ≤ l) (hl2 : l ≤ g.l_max) (b r ra t ta s : ℕ) :
    (g.call bs).h b r ra t ta s (l - g.l_min).toNat =
      ∑ m ∈ Finset.range (g.sampledCIR bs).numPaths,
        (g.sampledCIR bs).a b r ra t ta m s *
          Complex.ofReal (sinc ((l : ℝ)
            - g.bandwidth * (g.sampledCIR bs).tau b r t m)) := by
  have hk : g.l_min + (((l - g.l_min).toNat : ℤ)) = l := by
    rw [Int.toNat_of_nonneg (sub_nonneg.mpr hl1)]; ring
  simp only [GenerateTimeChannel.call, cir_to_time_channel, hnorm,
    Bool.false_eq_true, if_false, rawTimeChannel, rawTap]
  refine Finset.sum_congr rfl fun m _ => ?_
  rw [hk]

/-- C3: for a valid configuration and a sampler honouring the requested
number of sampling instants, the returned tensor's time-step axis has
length `num_time_samples + l_max - l_min` and its lag axis has length
`l_max - l_min + 1`. -/
theorem call_shape (channel_model : Sampler) (bandwidth : ℝ)
    (num_time_samples l_min l_max : ℤ) (norm : Bool) (bs : Option ℕ)
    (hl : l_min ≤ l_max) (hn : 1 ≤ num_time_samples)
    (hcontract : ((channel_model bs
        (num_time_samples + (l_max - l_min + 1) - 1) bandwidth).numSteps : ℤ)
      = num_time_samples + (l_max - l_min + 1) - 1) :
    (((GenerateTimeChannel.init channel_model bandwidth num_time_samples
        l_min l_max norm).call bs).numSteps : ℤ)
      = num_time_samples + l_max - l_min ∧
    (((GenerateTimeChannel.init channel_model bandwidth num_time_samples
        l_min l_max norm).call bs).lTot : ℤ) = l_max - l_min + 1 := by
  constructor
  · have h1 : ((GenerateTimeChannel.init channel_model bandwidth
        num_time_samples l_min l_max norm).call bs).numSteps =
        (channel_model bs (num_time_samples + (l_max - l_min + 1) - 1)
          bandwidth).numSteps := by
      cases norm <;> rfl
    rw [h1, hcontract]; ring
  · have h2 : ((GenerateTimeChannel.init channel_model bandwidth
        num_time_samples l_min l_max norm).call bs).lTot =
        (l_max - l_min + 1).toNat := by
      cases norm <;> rfl
    rw [h2, Int.toNat_of_nonneg (by omega)]

/-- Witness for C3 at a concrete configuration. -/
theorem call_shape_witness :
    (((GenerateTimeChannel.init (constPathSampler 1 0) 1 1 0 0 false).call
        none).numSteps : ℤ) = 1 + 0 - 0 ∧
    (((GenerateTimeChannel.init (constPathSampler 1 0) 1 1 0 0 false).call
        none).lTot : ℤ) = 0 - 0 + 1 :=
  call_shape (constPathSampler 1 0) 1 1 0 0 false none (by decide)
    (by decide) (by decide)

/-- C7: with normalization disabled, scaling every path gain returned by
the sampler by a complex constant `c` scales every returned tap by `c`. -/
theorem call_linear_in_gains (g : GenerateTimeChannel) (c : ℂ)
    (bs : Option ℕ) (hnorm : g.normalize_channel = false)
    (b r ra t ta s k : ℕ) :
    (({ g with cir_sampler := scaleGains c g.cir_sampler } :
        GenerateTimeChannel).call bs).h b r ra t ta s k
      = c * (g.call bs).h b r ra t ta s k := by
  simp only [GenerateTimeChannel.call, GenerateTimeChannel.sampledCIR,
    cir_to_time_channel, hnorm, Bool.false_eq_true, if_false,
    rawTimeChannel, rawTap, scaleGains]
  rw [Finset.mul_sum]
  exact Finset.sum_congr rfl fun m _ => by ring

/-- Witness for C1 at a concrete configuration (unit path, lag window
`[0, 0]`, no normalization). -/
theorem call_tap_formula_witness :
    gU.normalize_channel = false ∧
    (gU.call none).h 0 0 0 0 0 0 0 =
      ∑ m ∈ Finset.range (gU.sampledCIR none).numPaths,
        (gU.sampledCIR none).a 0 0 0 0 0 m 0 *
          Complex.ofReal (sinc (((0 : ℤ) : ℝ)
            - gU.bandwidth * (gU.sampledCIR none).tau 0 0 0 m)) :=
  ⟨rfl, call_tap_formula gU none rfl 0 (by decide) (by decide) 0 0 0 0 0 0⟩

/-- C6: with normalization enabled, an all-zero impulse response yields an
all-zero (hence finite) tap tensor: the zero-energy division is guarded. -/
theorem call_zero_energy_guard (g : GenerateTimeChannel) (bs : Option ℕ)
    (hnorm : g.normalize_channel = true)
    (ha : ∀ b r ra t ta m s, (g.sampledCIR bs).a b r ra t ta m s = 0)
    (b r ra t ta s k : ℕ) :
    (g.call bs).h b r ra t ta s k = 0 := by
  have hraw : ∀ b' r' ra' t' ta' s' k',
      rawTap g.bandwidth (g.sampledCIR bs) g.l_min b' r' ra' t' ta' s' k'
        = 0 := by
    intro b' r' ra' t' ta' s' k'
    unfold rawTap
    simp [ha]
  simp only [GenerateTimeChannel.call, cir_to_time_channel]
  rw [if_pos hnorm]
  dsimp only
  split
  · rfl
  · rw [show (rawTimeChannel g.bandwidth (g.sampledCIR bs) g.l_min
        g.l_max).h b r ra t ta s k = 0 from hraw b r ra t ta s k]
    exact zero_div _

/-- Witness for C6 at a concrete configuration (all-zero sampler,
normalization enabled). -/
theorem call_zero_energy_guard_witness :
    (gZ.call none).h 0 0 0 0 0 0 0 = 0 :=
  call_zero_energy_guard gZ none rfl (fun _ _ _ _ _ _ _ => rfl) 0 0 0 0 0 0 0

/-- C8 (amended): if the sampler returns exactly one path with delay 0 and
constant unit gain, then with normalization disabled the tap at lag index
`-l_min` (true lag 0) is 1 at every time step, and every other lag index
holds 0. -/
theorem call_single_path_identity (g : GenerateTimeChannel) (bs : Option ℕ)
    (hnorm : g.normalize_channel = false)
    (hmin : g.l_min ≤ 0) (hmax : 0 ≤ g.l_max)
    (hP : (g.sampledCIR bs).numPaths = 1)
    (htau : ∀ b r t, (g.sampledCIR bs).tau b r t 0 = 0)
    (ha : ∀ b r ra t ta s, (g.sampledCIR bs).a b r ra t ta 0 s = 1)
    (b r ra t ta s : ℕ) :
    (g.call bs).h b r ra t ta s (-g.l_min).toNat = 1 ∧
    ∀ k : ℕ, k ≠ (-g.l_min).toNat → (g.call bs).h b r ra t ta s k = 0 := by
  have hcall : ∀ k : ℕ, (g.call bs).h b r ra t ta s k
      = Complex.ofReal (sinc ((g.l_min + (k : ℤ) : ℤ) : ℝ)) := by
    intro k
    simp only [GenerateTimeChannel.call, cir_to_time_channel, hnorm,
      Bool.false_eq_true, if_false, rawTimeChannel, rawTap, hP]
    rw [Finset.sum_range_one, ha, htau]
    simp
  constructor
  · rw [hcall]
    have h0 : (g.l_min + ((-g.l_min).toNat : ℤ)) = 0 := by
      rw [Int.toNat_of_nonneg (by omega)]; ring
    rw [h0]
    simp [sinc_zero]
  · intro k hk
    rw [hcall]
    have hne : (g.l_min + (k : ℤ)) ≠ 0 := by
      intro h0
      exact hk (by omega)
    rw [sinc_intCast, if_neg hne]
    simp

/-- Average raw energy of the two-receive-antenna single-unit-path
configuration with bandwidth 1, one sampling instant and lag window
`[0, 0]`: one unit tap per antenna gives total energy 2. -/
lemma avgEnergy_rawTimeChannel_twoAnt :
    avgEnergy (rawTimeChannel 1 (twoAntSampler none 1 1) 0 0) 0 = 2 := by
  unfold avgEnergy stepEnergy rawTimeChannel rawTap twoAntSampler
  norm_num [Finset.sum_range_one, Finset.sum_range_succ, sinc_zero]

/-- Each raw tap of the two-receive-antenna single-unit-path configuration
equals 1. -/
lemma rawTap_twoAnt (r ra : ℕ) :
    (rawTimeChannel 1 (twoAntSampler none 1 1) 0 0).h 0 r ra 0 0 0 0 = 1 := by
  unfold rawTimeChannel rawTap twoAntSampler
  norm_num [Finset.sum_range_one, sinc_zero]

/-- C8 counterexample: with normalization enabled and two receive
antennas, a sampler returning exactly one path with delay 0 and constant
unit gain (the claim's premise verbatim) yields a returned tap of
`1 / sqrt 2 ≠ 1` at lag index `-l_min`: the per-batch energy rescaling by
`1 / sqrt 2` breaks the claimed identity. -/
theorem call_single_path_identity_counterexample :
    (gNA.sampledCIR none).numPaths = 1 ∧
    (∀ b r t, (gNA.sampledCIR none).tau b r t 0 = 0) ∧
    (∀ b r ra t ta s, (gNA.sampledCIR none).a b r ra t ta 0 s = 1) ∧
    (gNA.call none).h 0 0 0 0 0 0 (-gNA.l_min).toNat ≠ 1 := by
  refine ⟨rfl, fun _ _ _ => rfl, fun _ _ _ _ _ _ => rfl, ?_⟩
  have hE : avgEnergy (rawTimeChannel gNA.bandwidth (gNA.sampledCIR none)
      gNA.l_min gNA.l_max) 0 = 2 := avgEnergy_rawTimeChannel_twoAnt
  simp only [GenerateTimeChannel.call, cir_to_time_channel]
  rw [if_pos (show gNA.normalize_channel = true from rfl)]
  dsimp only
  rw [if_neg (by rw [hE]; norm_num)]
  rw [show (rawTimeChannel gNA.bandwidth (gNA.sampledCIR none) gNA.l_min
      gNA.l_max).h 0 0 0 0 0 0 ((-gNA.l_min).toNat) = 1 from
      rawTap_twoAnt 0 0]
  rw [hE]
  have hs0 : Real.sqrt 2 ≠ 0 := ne_of_gt (Real.sqrt_pos.mpr (by norm_num))
  have h2 : Real.sqrt 2 ≠ 1 := by
    intro h
    have h4 := Real.sq_sqrt (show (0 : ℝ) ≤ 2 by norm_num)
    rw [h] at h4
    norm_num at h4
  intro hc
  have hx : Complex.ofReal (Real.sqrt 2) = 1 := by
    have hmul := congrArg (fun z => z * Complex.ofReal (Real.sqrt 2)) hc
    simpa [div_mul_cancel₀, Complex.ofReal_ne_zero.mpr hs0] using hmul.symm
  have : Real.sqrt 2 = 1 := by
    have := hx
    rw [← Complex.ofReal_one] at this
    exact Complex.ofReal_injective this
  exact h2 this

/-- Witness for C8 at a concrete configuration (lag window `[-1, 1]`):
lag index 1 (true lag 0) holds 1, lag index 0 holds 0. -/
theorem call_single_path_identity_witness :
    (gU3.call none).h 0 0 0 0 0 0 1 = 1 ∧
    (gU3.call none).h 0 0 0 0 0 0 0 = 0 := by
  have h := call_single_path_identity gU3 none rfl (by decide) (by decide)
    rfl (fun _ _ _ => rfl) (fun _ _ _ _ _ _ => rfl) 0 0 0 0 0 0
  exact ⟨h.1, h.2 0 (by decide)⟩

/-- Witness for C7 at a concrete configuration and scaling constant 2. -/
theorem call_linear_in_gains_witness :
    (({ gU with cir_sampler := scaleGains 2 gU.cir_sampler } :
        GenerateTimeChannel).call none).h 0 0 0 0 0 0 0
      = 2 * (gU.call none).h 0 0 0 0 0 0 0 :=
  call_linear_in_gains gU 2 none rfl 0 0 0 0 0 0 0

lemma stepEnergy_nonneg (tc : TimeChannel) (b s : ℕ) :
    0 ≤ stepEnergy tc b s := by
  unfold stepEnergy
  refine Finset.sum_nonneg fun _ _ => Finset.sum_nonneg fun _ _ =>
    Finset.sum_nonneg fun _ _ => Finset.sum_nonneg fun _ _ =>
    Finset.sum_nonneg fun _ _ => Complex.normSq_nonneg _

lemma avgEnergy_nonneg (tc : TimeChannel) (b : ℕ) : 0 ≤ avgEnergy tc b :=
  div_nonneg (Finset.sum_nonneg fun _ _ => stepEnergy_nonneg tc b _)
    (Nat.cast_nonneg _)

lemma avgEnergy_normalized (tc tc' : TimeChannel) (b : ℕ)
    (hRx : tc'.numRx = tc.numRx) (hRxA : tc'.numRxAnt = tc.numRxAnt)
    (hTx : tc'.numTx = tc.numTx) (hTxA : tc'.numTxAnt = tc.numTxAnt)
    (hSteps : tc'.numSteps = tc.numSteps) (hLTot : tc'.lTot = tc.lTot)
    (hh : ∀ r ra t ta s k, tc'.h b r ra t ta s k
      = tc.h b r ra t ta s k / Complex.ofReal (Real.sqrt (avgEnergy tc b)))
    (hE : avgEnergy tc b ≠ 0) :
    avgEnergy tc' b = 1 := by
  have hc0 : 0 ≤ avgEnergy tc b := avgEnergy_nonneg tc b
  have hdiv : ∀ z : ℂ,
      Complex.normSq (z / Complex.ofReal (Real.sqrt (avgEnergy tc b)))
        = Complex.normSq z / avgEnergy tc b := by
    intro z
    rw [Complex.normSq_div, Complex.normSq_ofReal, Real.mul_self_sqrt hc0]
  have hstep : ∀ s, stepEnergy tc' b s = stepEnergy tc b s / avgEnergy tc b := by
    intro s
    unfold stepEnergy
    rw [hRx, hRxA, hTx, hTxA, hLTot]
    simp only [hh, hdiv, ← Finset.sum_div]
  have hfrac := hE
  unfold avgEnergy at hfrac
  obtain ⟨hS, hN⟩ := div_ne_zero_iff.mp hfrac
  unfold avgEnergy
  rw [hSteps]
  simp only [hstep, ← Finset.sum_div]
  unfold avgEnergy
  rw [div_div, div_mul_cancel₀ _ hN, div_self hS]

/-- C5: with normalization enabled, for every batch example whose raw
(pre-normalization) energy is non-zero, the average over output time steps
of the total tap energy of the returned tensor equals 1. -/
theorem call_normalized_unit_energy (g : GenerateTimeChannel)
    (bs : Option ℕ) (b : ℕ) (hnorm : g.normalize_channel = true)
    (hE : avgEnergy (rawTimeChannel g.bandwidth (g.sampledCIR bs) g.l_min
      g.l_max) b ≠ 0) :
    avgEnergy (g.call bs) b = 1 := by
  have hcallEq : g.call bs =
      { rawTimeChannel g.bandwidth (g.sampledCIR bs) g.l_min g.l_max with
        h := fun b' r ra t ta s k =>
          if avgEnergy (rawTimeChannel g.bandwidth (g.sampledCIR bs) g.l_min
              g.l_max) b' = 0 then 0
          else (rawTimeChannel g.bandwidth (g.sampledCIR bs) g.l_min
              g.l_max).h b' r ra t ta s k /
            Complex.ofReal (Real.sqrt (avgEnergy (rawTimeChannel g.bandwidth
              (g.sampledCIR bs) g.l_min g.l_max) b')) } := by
    simp only [GenerateTimeChannel.call, cir_to_time_channel]
    rw [if_pos hnorm]
  rw [hcallEq]
  refine avgEnergy_normalized
    (rawTimeChannel g.bandwidth (g.sampledCIR bs) g.l_min g.l_max) _ b
    rfl rfl rfl rfl rfl rfl (fun r ra t ta s k => ?_) hE
  dsimp only
  rw [if_neg hE]

/-- Average raw energy of the single-constant-path configuration with
bandwidth 1, one sampling instant and lag window `[0, 0]`. -/
lemma avgEnergy_rawTimeChannel_constPath (γ : ℂ) :
    avgEnergy (rawTimeChannel 1 (constPathSampler γ 0 none 1 1) 0 0) 0
      = Complex.normSq γ := by
  unfold avgEnergy stepEnergy rawTimeChannel rawTap constPathSampler
  norm_num [Finset.sum_range_one, sinc_zero]

/-- The single raw tap of the single-constant-path configuration equals
the path gain. -/
lemma rawTap_constPath_zero (γ : ℂ) :
    (rawTimeChannel 1 (constPathSampler γ 0 none 1 1) 0 0).h 0 0 0 0 0 0 0
      = γ := by
  unfold rawTimeChannel rawTap constPathSampler
  norm_num [Finset.sum_range_one, sinc_zero]

/-- Witness for C5 at a concrete configuration (unit path, normalization
enabled): the raw energy is 1, hence non-degenerate, and the normalized
average energy is 1. -/
theorem call_normalized_unit_energy_witness :
    avgEnergy (gN.call none) 0 = 1 := by
  apply call_normalized_unit_energy gN none 0 rfl
  have h1 : avgEnergy (rawTimeChannel gN.bandwidth (gN.sampledCIR none)
      gN.l_min gN.l_max) 0 = Complex.normSq 1 :=
    avgEnergy_rawTimeChannel_constPath 1
  rw [h1]
  norm_num

/-- C1 counterexample: with normalization enabled (gain 2, unit energy
rescaling), the returned tap is 1 while the sinc-sum formula gives 2, so
the formula does not describe the returned tensor on every call. -/
theorem call_tap_formula_counterexample :
    (gN2.call none).h 0 0 0 0 0 0 0 ≠
      ∑ m ∈ Finset.range (gN2.sampledCIR none).numPaths,
        (gN2.sampledCIR none).a 0 0 0 0 0 m 0 *
          Complex.ofReal (sinc (((0 : ℤ) : ℝ)
            - gN2.bandwidth * (gN2.sampledCIR none).tau 0 0 0 m)) := by
  have hE : avgEnergy (rawTimeChannel gN2.bandwidth (gN2.sampledCIR none)
      gN2.l_min gN2.l_max) 0 = 4 := by
    have h := avgEnergy_rawTimeChannel_constPath 2
    rw [show Complex.normSq 2 = 4 by norm_num [Complex.normSq_apply]] at h
    exact h
  have hsqrt : Real.sqrt 4 = 2 := by
    rw [show (4 : ℝ) = 2 ^ 2 by norm_num,
      Real.sqrt_sq (by norm_num : (0 : ℝ) ≤ 2)]
  have hlhs : (gN2.call none).h 0 0 0 0 0 0 0 = 1 := by
    simp only [GenerateTimeChannel.call, cir_to_time_channel]
    rw [if_pos (show gN2.normalize_channel = true from rfl)]
    dsimp only
    rw [if_neg (by rw [hE]; norm_num)]
    rw [show (rawTimeChannel gN2.bandwidth (gN2.sampledCIR none) gN2.l_min
        gN2.l_max).h 0 0 0 0 0 0 0 = 2 from rawTap_constPath_zero 2]
    rw [hE, hsqrt]
    norm_num
  have hrhs : (∑ m ∈ Finset.range (gN2.sampledCIR none).numPaths,
      (gN2.sampledCIR none).a 0 0 0 0 0 m 0 *
        Complex.ofReal (sinc (((0 : ℤ) : ℝ)
          - gN2.bandwidth * (gN2.sampledCIR none).tau 0 0 0 m))) = 2 := by
    rw [show gN2.sampledCIR none = constPathSampler 2 0 none 1 1 from rfl,
      show gN2.bandwidth = 1 from rfl]
    norm_num [constPathSampler, Finset.sum_range_one, sinc_zero]
  rw [hlhs, hrhs]
  norm_num

end Sionna
